import Mathlib

/-!
Verification of the mhdb spreadsheet-to-Turtle converter.

This file gives a shallow embedding of the core of the repository:
the label/IRI formatting functions (`spreadsheet_io.convert_string_to_label`,
`write_ttl.mhdb_iri`, `write_ttl.check_iri`), the literal wrapper
(`language_string`), the statement store (`ingest.add_if` and the
dict-spread merge idiom), the Turtle serializer
(`write_ttl.turtle_from_dict`), the spreadsheet cell helpers
(`spreadsheet_io.return_float`, `return_none_for_nan`, `get_cell`,
`get_index2`) and the per-row ingestion logic of `ingest.BehaviorSheet1`.

Python strings are embedded as Lean `String` and, for the character-level
functions, as `List Char`.  Python dictionaries (which preserve insertion
order) are embedded as key-unique association lists; Python sets of RDF
objects are embedded as duplicate-free lists (membership semantics is what
the claims use).  Fallible code returns `Option`: an outer `none` is an
uncaught Python exception; a value `Option.none` nested inside `some`
embeds the Python value `None` where the function can return it.
-/

/-! ## Python character predicates

`Char.isAlphanum` in Lean is exactly the ASCII ranges 0-9, A-Z, a-z, which
coincides with Python `str.isalnum` on ASCII.  Python `str.isalnum` is
however Unicode-aware; the embedding below reproduces it exactly on all
code points below 0x100 (Basic Latin plus the Latin-1 Supplement, where
the alphanumeric code points are 0xAA, 0xB2, 0xB3, 0xB5, 0xB9, 0xBA,
0xBC, 0xBD, 0xBE and 0xC0-0xFF except the multiplication and division
signs 0xD7 and 0xF7).  No definition in this file is evaluated at a code
point at or above 0x100. -/
def pyIsAlnum (c : Char) : Bool :=
  if c.toNat < 0x80 then c.isAlphanum
  else if c.toNat < 0x100 then
    (c.toNat = 0xAA || c.toNat = 0xB2 || c.toNat = 0xB3 || c.toNat = 0xB5 ||
     c.toNat = 0xB9 || c.toNat = 0xBA || c.toNat = 0xBC || c.toNat = 0xBD ||
     c.toNat = 0xBE) ||
    (0xC0 ≤ c.toNat && c.toNat ≠ 0xD7 && c.toNat ≠ 0xF7)
  else false

/-- Python `str.isspace` / the characters removed by `str.strip()`,
embedded exactly on code points below 0x100: tab, LF, VT, FF, CR, the
file/group/record/unit separators 0x1C-0x1F, space, NEL (0x85) and
no-break space (0xA0). -/
def pyIsSpace (c : Char) : Bool :=
  c.toNat = 9 || c.toNat = 10 || c.toNat = 11 || c.toNat = 12 ||
  c.toNat = 13 || c.toNat = 28 || c.toNat = 29 || c.toNat = 30 ||
  c.toNat = 31 || c.toNat = 32 || c.toNat = 0x85 || c.toNat = 0xA0

/-- Python `str.strip()`: drop leading and trailing whitespace. -/
def pyStripChars (l : List Char) : List Char :=
  ((l.dropWhile pyIsSpace).reverse.dropWhile pyIsSpace).reverse

/-- Python `str.replace(" ", "_")`: a one-character pattern, so a
character-wise map. -/
def replaceSpaceChars : List Char → List Char
  | [] => []
  | c :: cs => (if c = ' ' then '_' else c) :: replaceSpaceChars cs

/-- Python `str.replace("_-_", "-")`: scan left to right, replacing each
non-overlapping occurrence of the three-character pattern and continuing
after the replacement. -/
def replaceUnderHyphenUnder : List Char → List Char
  | '_' :: '-' :: '_' :: rest => '-' :: replaceUnderHyphenUnder rest
  | c :: rest => c :: replaceUnderHyphenUnder rest
  | [] => []

/-- The keep-filter of `convert_string_to_label`:
`c.isalnum() or c in ('-', '_')`. -/
def keepLabelChar (c : Char) : Bool :=
  pyIsAlnum c || c = '-' || c = '_'

/-- Python `str.rstrip()`: drop trailing whitespace. -/
def pyRstripChars (l : List Char) : List Char :=
  (l.reverse.dropWhile pyIsSpace).reverse

/-- Character-level core of `spreadsheet_io.convert_string_to_label`:
strip, replace spaces by underscores, collapse the substring made of
underscore-hyphen-underscore to a hyphen, keep only alphanumeric
characters and hyphen/underscore, and finally rstrip. -/
def convertLabelChars (l : List Char) : List Char :=
  pyRstripChars
    ((replaceUnderHyphenUnder (replaceSpaceChars (pyStripChars l))).filter
      keepLabelChar)

/-- `spreadsheet_io.convert_string_to_label`.  The source raises an
exception (`none` here) when the input is not a truthy string, i.e. on
the empty string. -/
def convert_string_to_label (s : String) : Option String :=
  if s = "" then none
  else some (String.mk (convertLabelChars s.data))

/-- `write_ttl.mhdb_iri`: prepend the default-namespace marker to the
slug of the label.  Propagates the exception of
`convert_string_to_label`. -/
def mhdb_iri (label : String) : Option String :=
  (convert_string_to_label label).map (fun lab => "mhdb:" ++ lab)

/-- `pat.leadsWith l`: the list `l` starts with the pattern `pat`
(list-level `startswith`). -/
def leadsWith : List Char → List Char → Bool
  | [], _ => true
  | _ :: _, [] => false
  | p :: ps, c :: cs => p = c && leadsWith ps cs

/-- `occursIn pat l`: the pattern occurs as a contiguous subsequence of
`l` (Python `pat in l` on strings). -/
def occursIn (pat : List Char) : List Char → Bool
  | [] => leadsWith pat []
  | c :: cs => leadsWith pat (c :: cs) || occursIn pat cs

/-- The registered prefix set of `check_iri`: the empty and blank-node
entries plus the first component of every supplied pair. -/
def prefix_strings (prefixes : List (String × String)) : List String :=
  "" :: "_" :: prefixes.map (fun pr => pr.1)

/-- Character-level `convert_string_to_label` with its exception:
`none` on the empty list. -/
def convertLabelCharsOpt (l : List Char) : Option (List Char) :=
  if l = [] then none else some (convertLabelChars l)

/-- Core of `write_ttl.check_iri`, structured on the reversed character
list so that stripping a trailing colon (`iri.endswith(":")` followed by
recursion on `iri[:-1]`) is structural recursion on the head of the
reversed list.  The outer `Option` is an uncaught exception (raised by
`convert_string_to_label` on an empty label); the inner `Option` is the
Python return value, `none` embedding the implicit `return None` that
follows the unknown-prefix diagnostic print. -/
def check_iri_rev (ps : List (String × String)) : List Char → Option (Option (List Char))
  | [] =>
    -- the empty string contains no colon, so the source falls to
    -- mhdb_iri(""), whose convert_string_to_label raises
    (convertLabelCharsOpt []).map (fun lab => some (['m', 'h', 'd', 'b', ':'] ++ lab))
  | c :: rl =>
    let l := (c :: rl).reverse
    if occursIn [':'] l && !(occursIn [':', ' '] l) then
      if c = ':' then
        check_iri_rev ps rl
      else if (prefix_strings ps).contains (String.mk (l.takeWhile (fun ch => ch ≠ ':'))) then
        some (some l)
      else if occursIn [':', '/'] l then
        some (some ('<' :: l ++ ['>']))
      else
        -- prints the unknown-prefix diagnostic and implicitly returns None
        some none
    else
      (convertLabelCharsOpt l).map (fun lab => some (['m', 'h', 'd', 'b', ':'] ++ lab))

/-- `write_ttl.check_iri` on strings.  The `prefixes=None` default of the
source is the empty list here. -/
def check_iri (iri : String) (ps : List (String × String)) : Option (Option String) :=
  (check_iri_rev ps iri.data.reverse).map (Option.map String.mk)

/-! ## Python cell values

Spreadsheet cells are loosely typed: a cell is missing (`None`), a
not-a-number float marker (`NaN`), a number, or a string.  The sheets feed
integer index values, so numbers are embedded as `Int` (Python floats at
these values are exact).  Truthiness follows Python: `None` is falsy,
`NaN` is truthy, a number is truthy iff nonzero, a string iff nonempty. -/
inductive PyVal where
  | pnone : PyVal
  | nan : PyVal
  | num : Int → PyVal
  | str : String → PyVal
deriving DecidableEq, Repr

/-- Python truthiness of a cell value. -/
def pyTruthy : PyVal → Bool
  | .pnone => false
  | .nan => true
  | .num x => x ≠ 0
  | .str s => s ≠ ""

/-- Python `==` as used by pandas element comparison: `NaN` compares
unequal to everything (itself included), `None` likewise in a column
comparison, numbers and strings compare by value, and values of
different kinds compare unequal. -/
def pyEq : PyVal → PyVal → Bool
  | .num a, .num b => a = b
  | .str a, .str b => a = b
  | _, _ => false

/-- `isinstance(v, float)`: the NaN marker and the (float-valued) numbers
of a float column are floats; strings and `None` are not. -/
def pyIsFloat : PyVal → Bool
  | .nan => true
  | .num _ => true
  | _ => false

/-- Python `str(v)` coercion, as applied by `check_iri` to its argument. -/
def pyStr : PyVal → String
  | .pnone => "None"
  | .nan => "nan"
  | .num x => toString x
  | .str s => s

/-- Value of a nonempty all-digit character list. -/
def digitsValAux : List Char → Nat → Option Nat
  | [], acc => some acc
  | c :: cs, acc =>
    if c.isDigit then digitsValAux cs (acc * 10 + (c.toNat - 48)) else none

/-- Value of a digit list, `none` when empty or holding a non-digit. -/
def digitsVal : List Char → Option Nat
  | [] => none
  | l => digitsValAux l 0

/-- The numeric parse of Python `float(s)`, restricted to the
optionally-signed integer-valued decimal strings the index columns hold
(fractional and exponent forms do not occur in the evaluated data). -/
def parseIntValue (s : String) : Option Int :=
  match s.data with
  | '-' :: rest => (digitsVal rest).map (fun n => -(n : Int))
  | '+' :: rest => (digitsVal rest).map (fun n => (n : Int))
  | l => (digitsVal l).map (fun n => (n : Int))

/-- The `is_number` helper inside `spreadsheet_io.return_float`: falsy
values (`None`, `0`, `""`) fail the leading truthiness test, a NaN float
is rejected, and otherwise `float(s)` must succeed. -/
def is_number : PyVal → Bool
  | .pnone => false
  | .nan => false
  | .num x => x ≠ 0
  | .str s => s ≠ "" && (parseIntValue s).isSome

/-- `spreadsheet_io.return_float`: the parsed float when `is_number`
accepts the input, otherwise `None`. -/
def return_float (v : PyVal) : Option Int :=
  if is_number v then
    match v with
    | .num x => some x
    | .str s => parseIntValue s
    | _ => none
  else none

/-- The `is_not_nan` helper inside `spreadsheet_io.return_none_for_nan`:
falsy values (`None`, `0`, `""`) fail the leading truthiness test, NaN
floats and the strings rendering as NaN are rejected. -/
def is_not_nan : PyVal → Bool
  | .pnone => false
  | .nan => false
  | .num x => x ≠ 0
  | .str s => s ≠ "" && s ≠ "NaN" && s ≠ "nan"

/-- `spreadsheet_io.return_none_for_nan`. -/
def return_none_for_nan (v : PyVal) : PyVal :=
  if is_not_nan v then v else .pnone

/-- Key-unique association-list lookup (the embedding of Python
dictionary indexing). -/
def alookup {K V : Type} [DecidableEq K] (k : K) : List (K × V) → Option V
  | [] => none
  | kv :: rest => if kv.1 = k then some kv.2 else alookup k rest

/-- A worksheet: named columns of cell values (the "table with named
columns and an integer row index" contract). -/
structure Worksheet where
  cols : List (String × List PyVal)
deriving DecidableEq, Repr

/-- `spreadsheet_io.get_cell`.  The outer `none` is the exception raised
when the row index is out of range; a present column in range yields the
cell, mapped through `return_none_for_nan` when `no_nan` holds and
through the exclusion list; an absent column returns Python `None`
(embedded as the value `PyVal.pnone`). -/
def get_cell (ws : Worksheet) (label : String) (idx : Nat) (exclude : List PyVal)
    (no_nan : Bool) : Option PyVal :=
  match alookup label ws.cols with
  | none => some .pnone
  | some col =>
    if h : idx < col.length then
      let cell := col.get ⟨idx, h⟩
      let cell := if no_nan then return_none_for_nan cell else cell
      if exclude ≠ [] ∧ cell ∈ exclude then some .pnone else some cell
    else none

/-- `spreadsheet_io.get_index2`.  The outer `none` is an uncaught
exception (out-of-range row index, or a missing `index` column in the
second worksheet); `some none` embeds the Python `None` returns; and
`some (some i)` is the row position of the first matching `index`
value. -/
def get_index2 (ws1 : Worksheet) (col1 : String) (idx1 : Nat) (ws2 : Worksheet) :
    Option (Option Nat) :=
  match get_cell ws1 col1 idx1 [] true with
  | none => none
  | some cell =>
    if pyTruthy cell then
      match return_float cell with
      | none => some none
      | some x =>
        if x ≠ 0 then
          match alookup "index" ws2.cols with
          | none => none
          | some idxcol =>
            match idxcol.findIdx? (fun v => pyEq v (.num x)) with
            | some i => some (some i)
            | none => some none
        else some none
    else some none

/-! ## The statement store

`subject → predicate → set of objects`, embedded as insertion-ordered
key-unique association lists (Python dictionaries) whose innermost level
is a duplicate-free insertion-ordered list (Python set membership
semantics).  The store is generic in the subject, predicate and object
types, because the Python dictionaries are untyped: `BehaviorSheet1`
stores the Python value `None` as an object and can in principle use
`None` as a subject. -/
abbrev Store (σ π α : Type) := List (σ × List (π × List α))

/-- Insertion into a Python set: a no-op when the element is present. -/
def setAdd {α : Type} [DecidableEq α] (o : α) (objs : List α) : List α :=
  if o ∈ objs then objs else objs ++ [o]

/-- Insertion into the predicate map of one subject: the second branch of
`ingest.add_if` (`statements[subject][predicate] = {object}` when absent,
`.add(object)` when present). -/
def addPred {π α : Type} [DecidableEq π] [DecidableEq α] (p : π) (o : α) :
    List (π × List α) → List (π × List α)
  | [] => [(p, [o])]
  | pv :: rest =>
    if pv.1 = p then (pv.1, setAdd o pv.2) :: rest
    else pv :: addPred p o rest

/-- `ingest.add_if`: insert `object` into `statements[subject][predicate]`,
creating the intermediate mappings as needed, and return the updated
store. -/
def add_if {σ π α : Type} [DecidableEq σ] [DecidableEq π] [DecidableEq α]
    (s : σ) (p : π) (o : α) : Store σ π α → Store σ π α
  | [] => [(s, [(p, [o])])]
  | sv :: rest =>
    if sv.1 = s then (sv.1, addPred p o sv.2) :: rest
    else sv :: add_if s p o rest

/-- The objects recorded for a subject and predicate (empty when either
level is absent). -/
def objectsOf {σ π α : Type} [DecidableEq σ] [DecidableEq π]
    (s : σ) (p : π) (st : Store σ π α) : List α :=
  match alookup s st with
  | none => []
  | some pm =>
    match alookup p pm with
    | none => []
    | some objs => objs

/-- Membership of a triple in a store. -/
def storeHas {σ π α : Type} [DecidableEq σ] [DecidableEq π]
    (s : σ) (p : π) (o : α) (st : Store σ π α) : Prop :=
  o ∈ objectsOf s p st

instance {σ π α : Type} [DecidableEq σ] [DecidableEq π] [DecidableEq α]
    (s : σ) (p : π) (o : α) (st : Store σ π α) : Decidable (storeHas s p o st) :=
  inferInstanceAs (Decidable (o ∈ objectsOf s p st))

/-- Python dictionary spread merge: the keys of the left dictionary in
order, each carrying the right dictionary value when the key is present
there, followed by the keys only the right dictionary has, in order.
This is the merge idiom of the source: subject-level in `Project`
(spreading `doi_iri` results with the accumulated statements) and
predicate-level in `audience_statements`. -/
def dictUpdate {K V : Type} [DecidableEq K] (a b : List (K × V)) : List (K × V) :=
  (a.map fun kv =>
    match alookup kv.1 b with
    | some v => (kv.1, v)
    | none => kv) ++
  b.filter fun kv => (alookup kv.1 a).isNone

/-- Merging two statement stores by the dictionary-spread idiom of the source. -/
def mergeStores {σ π α : Type} [DecidableEq σ] (a b : Store σ π α) : Store σ π α :=
  dictUpdate a b

/-! ## Turtle serialization -/

/-- Python `sep.join(parts)`. -/
def strJoin (sep : String) : List String → String
  | [] => ""
  | [a] => a
  | a :: rest => a ++ sep ++ strJoin sep rest

/-- `write_ttl.turtle_from_dict`: for each subject, all predicate-object
pairs (outer iteration over predicates, inner over the object set of
each predicate) joined by a semicolon and a tab-indented newline, wrapped as
`subject pairs .`; the subject blocks joined by blank lines.  (The local
list `x` of NaN-like markers in the source is dead: it is never read.) -/
def turtle_from_dict (d : Store String String String) : String :=
  strJoin "\n\n"
    (d.map fun sv =>
      sv.1 ++ " " ++
        strJoin " ;\n\t"
          (sv.2.flatMap fun pv => pv.2.map fun o => pv.1 ++ " " ++ o) ++
        " .")

/-! ## The literal wrapper -/

/-- Python `s.replace(chr(34), chr(39))`: substitute an apostrophe for
every double quote. -/
def replaceQuoteChars : List Char → List Char
  | [] => []
  | c :: cs => (if c = '"' then Char.ofNat 39 else c) :: replaceQuoteChars cs

/-- Modelled from the spec: `language_string` is imported by `ingest.py`
from `mhdb.write_ttl` but is not among the source files of the repository.
Per the spec (literal wrapping): wrap the text in triple quotes and
append a language tag (default `en`), after substituting an apostrophe
for every embedded double quote; a `None` or empty input yields the
empty string rather than an error. -/
def language_string (t : Option String) : String :=
  match t with
  | none => ""
  | some s =>
    if s = "" then ""
    else "\"\"\"" ++ String.mk (replaceQuoteChars s.data) ++ "\"\"\"@en"

/-! ## The BehaviorSheet1 row ingestion -/

/-- One row of the behavior Sheet1 worksheet, with the columns the
ingestion loop reads.  The symptom cell of the scenario rows is a
string. -/
structure BehaviorRow where
  symptom : String
  sign_or_symptom_idx : PyVal
  reference_idx : PyVal
  gender_idx : PyVal
deriving DecidableEq, Repr

/-- One row of the `Reference` worksheet of the master spreadsheet. -/
structure RefRow where
  index : PyVal
  ReferenceName : PyVal
  ReferenceLink : PyVal
deriving DecidableEq, Repr

/-- One row of the `gender` worksheet. -/
structure GenderRow where
  index : PyVal
  gender : PyVal
deriving DecidableEq, Repr

/-- The Python value a resolved source becomes when stored as an RDF
object: the string, or the `None` object. -/
def sourceObject : Option String → PyVal
  | none => .pnone
  | some s => .str s

/-- The body of the row loop of `ingest.BehaviorSheet1` (the per-row
statement production): classify the sign-or-symptom discriminant, filter
the `Reference` worksheet by the reference index of the row and take the first
`ReferenceLink` (an exception — `none` — when no row matches), null the
source when that link is a float (the NaN case) and otherwise format it
with `check_iri`, wrap the symptom label, build the symptom IRI with
`check_iri`, resolve the audience gender (Python `None` when no gender
row matches), and insert the label, superclass and source triples,
followed by the audience triples when the gender is truthy.  Exceptions
from `check_iri` propagate. -/
def behavior_row_ingest (row : BehaviorRow) (mh_reference : List RefRow)
    (gender : List GenderRow) (st : Store PyVal String PyVal) :
    Option (Store PyVal String PyVal) :=
  let sign_or_symptom : String :=
    if pyEq row.sign_or_symptom_idx (.num 1) then "health-lifesci:MedicalSign"
    else if pyEq row.sign_or_symptom_idx (.num 2) then "health-lifesci:MedicalSymptom"
    else "health-lifesci:MedicalSignOrSymptom"
  match (mh_reference.filter fun r => pyEq r.index row.reference_idx).head? with
  | none => none
  | some refrow =>
    (if pyIsFloat refrow.ReferenceLink then some none
     else check_iri (pyStr refrow.ReferenceLink) []).bind fun source =>
    (check_iri row.symptom []).bind fun symptom_iri =>
    let symptom_label := language_string (some row.symptom)
    let subject := sourceObject symptom_iri
    let audience_gender :=
      ((gender.filter fun g => pyEq g.index row.gender_idx).head?).map GenderRow.gender
    let st := add_if subject "rdfs:label" (.str symptom_label) st
    let st := add_if subject "rdfs:subClassOf" (.str sign_or_symptom) st
    let st := add_if subject "dcterms:source" (sourceObject source) st
    some (match audience_gender with
      | none => st
      | some g =>
        if pyTruthy g then
          add_if subject "schema:epidemiology" g
            (add_if subject "schema:audience" g st)
        else st)

/-! ## The serialization format as the spec states it

These definitions follow the words of the spec for the rendered Turtle shape
(`subject pred1 obj1 ;\n\tpred2 obj2 ... .`, blocks separated by blank
lines) by explicit recursion; the refinement theorem for the serializer
compares them with `turtle_from_dict`. -/

/-- All predicate-object pairs of one subject, predicates in store order,
objects in set order. -/
def pred_obj_pairs (pm : List (String × List String)) : List (String × String) :=
  pm.flatMap fun pv => pv.2.map fun o => (pv.1, o)

/-- Spec rendering of the pair list: pairs joined by a semicolon and a
tab-indented newline. -/
def render_pairs_spec : List (String × String) → String
  | [] => ""
  | [po] => po.1 ++ " " ++ po.2
  | po :: rest => po.1 ++ " " ++ po.2 ++ " ;\n\t" ++ render_pairs_spec rest

/-- Spec rendering of one subject block, terminated by a dot. -/
def render_block_spec (sv : String × List (String × List String)) : String :=
  sv.1 ++ " " ++ render_pairs_spec (pred_obj_pairs sv.2) ++ " ."

/-- Spec rendering of a whole store: blocks separated by blank lines. -/
def render_store_spec : Store String String String → String
  | [] => ""
  | [sv] => render_block_spec sv
  | sv :: rest => render_block_spec sv ++ "\n\n" ++ render_store_spec rest

/-! ## Auxiliary state for the default-argument behavior of add_if -/

/-- Python evaluates the default `statements={}` of `add_if` once, at
function definition time; every call that omits the argument receives
that same dictionary, which `add_if` mutates in place and returns.  Two
successive calls omitting the argument therefore chain: the first starts
from the (initially empty) shared dictionary, and the second starts from
the dictionary as the first call left it.  This definition returns both
results of both calls. -/
def add_if_default_twice (s1 p1 o1 s2 p2 o2 : String) :
    Store String String String × Store String String String :=
  let first := add_if s1 p1 o1 []
  let second := add_if s2 p2 o2 first
  (first, second)

/-- Bool-level check that no key of `a` occurs in `b`. -/
def disjointKeys {K V W : Type} [DecidableEq K] (a : List (K × V)) (b : List (K × W)) : Bool :=
  a.all fun kv => (alookup kv.1 b).isNone

/-- Bool-level check that every character of a string is in the claimed
slug character set `A-Z a-z 0-9 . _ -`. -/
def onlyLabelSafeChars (s : String) : Bool :=
  s.data.all fun c => c.isAlphanum || c = '-' || c = '.' || c = '_'

/-- Bool-level check that a string consists of ASCII characters. -/
def allAscii (s : String) : Bool :=
  s.data.all fun c => c.toNat < 0x80

/-- Bool-level check that a character list holds no double quote. -/
def noDoubleQuote (l : List Char) : Bool :=
  l.all fun c => c ≠ '"'

/-! ## Helper lemmas: the statement store -/

theorem setAdd_idem {α : Type} [DecidableEq α] (o : α) (l : List α) :
    setAdd o (setAdd o l) = setAdd o l := by
  unfold setAdd
  by_cases h : o ∈ l
  · simp [h]
  · simp [h]

theorem mem_setAdd_of_mem {α : Type} [DecidableEq α] {o' : α} (o : α) {l : List α}
    (h : o' ∈ l) : o' ∈ setAdd o l := by
  unfold setAdd
  by_cases hm : o ∈ l
  · rw [if_pos hm]
    exact h
  · rw [if_neg hm]
    exact List.mem_append_left _ h

theorem mem_setAdd_self {α : Type} [DecidableEq α] (o : α) (l : List α) :
    o ∈ setAdd o l := by
  unfold setAdd
  by_cases hm : o ∈ l
  · rw [if_pos hm]
    exact hm
  · rw [if_neg hm]
    exact List.mem_append_right _ (List.mem_singleton.mpr rfl)

theorem alookup_addPred {π α : Type} [DecidableEq π] [DecidableEq α]
    (p' p : π) (o : α) (pm : List (π × List α)) :
    alookup p' (addPred p o pm) =
      if p = p' then some (setAdd o ((alookup p pm).getD []))
      else alookup p' pm := by
  induction pm with
  | nil =>
    by_cases h : p = p' <;> simp [addPred, alookup, h, setAdd]
  | cons pv rest ih =>
    by_cases hp : pv.1 = p
    · subst hp
      by_cases h : pv.1 = p'
      · simp [addPred, alookup, h]
      · simp [addPred, alookup, h]
    · by_cases h : pv.1 = p'
      · have hpp : ¬ p = p' := by
          intro hc
          exact hp (h.trans hc.symm)
        have hpp2 : ¬ p' = p := by
          intro hc
          exact hpp hc.symm
        simp [addPred, alookup, hp, h, hpp, hpp2]
      · simp [addPred, alookup, hp, h, ih]

theorem alookup_add_if {σ π α : Type} [DecidableEq σ] [DecidableEq π] [DecidableEq α]
    (s' s : σ) (p : π) (o : α) (st : Store σ π α) :
    alookup s' (add_if s p o st) =
      if s = s' then some (addPred p o ((alookup s st).getD []))
      else alookup s' st := by
  induction st with
  | nil =>
    by_cases h : s = s' <;> simp [add_if, alookup, h, addPred]
  | cons sv rest ih =>
    by_cases hs : sv.1 = s
    · subst hs
      by_cases h : sv.1 = s'
      · simp [add_if, alookup, h]
      · simp [add_if, alookup, h]
    · by_cases h : sv.1 = s'
      · have hss : ¬ s = s' := by
          intro hc
          exact hs (h.trans hc.symm)
        have hss2 : ¬ s' = s := by
          intro hc
          exact hss hc.symm
        simp [add_if, alookup, hs, h, hss, hss2]
      · simp [add_if, alookup, hs, h, ih]

theorem objectsOf_add_if {σ π α : Type} [DecidableEq σ] [DecidableEq π] [DecidableEq α]
    (s' s : σ) (p' p : π) (o : α) (st : Store σ π α) :
    objectsOf s' p' (add_if s p o st) =
      if s = s' then
        (if p = p' then setAdd o (objectsOf s p st) else objectsOf s' p' st)
      else objectsOf s' p' st := by
  unfold objectsOf
  rw [alookup_add_if]
  by_cases hs : s = s'
  · subst hs
    rw [if_pos rfl, if_pos rfl]
    cases halo : alookup s st with
    | none =>
      simp only [Option.getD_none]
      rw [alookup_addPred]
      by_cases hp : p = p'
      · subst hp
        rw [if_pos rfl, if_pos rfl]
        simp [alookup]
      · rw [if_neg hp, if_neg hp]
        simp [alookup]
    | some pm =>
      simp only [Option.getD_some]
      rw [alookup_addPred]
      by_cases hp : p = p'
      · subst hp
        rw [if_pos rfl, if_pos rfl]
        cases halp : alookup p pm <;> simp
      · rw [if_neg hp, if_neg hp]
  · rw [if_neg hs, if_neg hs]

theorem addPred_idem {π α : Type} [DecidableEq π] [DecidableEq α]
    (p : π) (o : α) (pm : List (π × List α)) :
    addPred p o (addPred p o pm) = addPred p o pm := by
  induction pm with
  | nil => simp [addPred, setAdd]
  | cons pv rest ih =>
    by_cases hp : pv.1 = p
    · simp [addPred, hp, setAdd_idem]
    · simp [addPred, hp, ih]

theorem add_if_idem {σ π α : Type} [DecidableEq σ] [DecidableEq π] [DecidableEq α]
    (s : σ) (p : π) (o : α) (st : Store σ π α) :
    add_if s p o (add_if s p o st) = add_if s p o st := by
  induction st with
  | nil =>
    have h1 : addPred p o [(p, [o])] = [(p, [o])] := addPred_idem p o []
    simp [add_if, h1]
  | cons sv rest ih =>
    by_cases hs : sv.1 = s
    · simp [add_if, hs, addPred_idem]
    · simp [add_if, hs, ih]

theorem storeHas_add_if_mono {σ π α : Type} [DecidableEq σ] [DecidableEq π] [DecidableEq α]
    {s' : σ} {p' : π} {o' : α} (s : σ) (p : π) (o : α) {st : Store σ π α}
    (h : storeHas s' p' o' st) : storeHas s' p' o' (add_if s p o st) := by
  unfold storeHas at h ⊢
  rw [objectsOf_add_if]
  by_cases hs : s = s'
  · rw [if_pos hs]
    by_cases hp : p = p'
    · rw [if_pos hp]
      subst hs
      subst hp
      exact mem_setAdd_of_mem o h
    · rw [if_neg hp]
      exact h
  · rw [if_neg hs]
    exact h

theorem storeHas_add_if_self {σ π α : Type} [DecidableEq σ] [DecidableEq π] [DecidableEq α]
    (s : σ) (p : π) (o : α) (st : Store σ π α) : storeHas s p o (add_if s p o st) := by
  unfold storeHas
  rw [objectsOf_add_if, if_pos rfl, if_pos rfl]
  exact mem_setAdd_self o _

/-! ## Helper lemmas: dictionary merge -/

theorem alookup_append {K V : Type} [DecidableEq K] (k : K) (l1 l2 : List (K × V)) :
    alookup k (l1 ++ l2) =
      match alookup k l1 with
      | some v => some v
      | none => alookup k l2 := by
  induction l1 with
  | nil => simp [alookup]
  | cons kv rest ih =>
    by_cases h : kv.1 = k
    · simp [alookup, h]
    · simp [alookup, h, ih]

theorem mem_of_alookup_eq_some {K V : Type} [DecidableEq K] {k : K} {v : V} :
    ∀ {l : List (K × V)}, alookup k l = some v → (k, v) ∈ l := by
  intro l
  induction l with
  | nil =>
    intro h
    simp [alookup] at h
  | cons kv rest ih =>
    intro h
    by_cases hk : kv.1 = k
    · have hv : kv.2 = v := by
        simpa [alookup, hk] using h
      have hkv : (k, v) = kv := by
        rw [← hk, ← hv]
      rw [hkv]
      exact List.mem_cons_self kv rest
    · have hmem := ih (by simpa [alookup, hk] using h)
      exact List.mem_cons_of_mem kv hmem

theorem alookup_isSome_of_mem {K V : Type} [DecidableEq K] {kv : K × V} {l : List (K × V)}
    (h : kv ∈ l) : (alookup kv.1 l).isSome := by
  induction l with
  | nil => cases h
  | cons kv2 rest ih =>
    by_cases hk : kv2.1 = kv.1
    · simp [alookup, hk]
    · rcases List.mem_cons.mp h with heq | hmem
      · exact absurd (by rw [heq]) hk
      · simpa [alookup, hk] using ih hmem

theorem disjointKeys_spec {K V W : Type} [DecidableEq K] {a : List (K × V)}
    {b : List (K × W)} (h : disjointKeys a b = true) :
    ∀ kv ∈ a, alookup kv.1 b = none := by
  intro kv hkv
  have := List.all_eq_true.mp h kv hkv
  exact Option.isNone_iff_eq_none.mp this

theorem disjointKeys_symm {K V : Type} [DecidableEq K] {a b : List (K × V)}
    (h : disjointKeys a b = true) : disjointKeys b a = true := by
  rw [disjointKeys, List.all_eq_true]
  intro kv hkv
  rw [Option.isNone_iff_eq_none]
  cases halo : alookup kv.1 a with
  | none => rfl
  | some v =>
    have hmem : (kv.1, v) ∈ a := mem_of_alookup_eq_some halo
    have hnone := disjointKeys_spec h (kv.1, v) hmem
    have hsome := alookup_isSome_of_mem hkv
    rw [hnone] at hsome
    cases hsome

theorem dictUpdate_of_disjoint {K V : Type} [DecidableEq K] {a b : List (K × V)}
    (h : disjointKeys a b = true) : dictUpdate a b = a ++ b := by
  unfold dictUpdate
  have hmap : (a.map fun kv =>
      match alookup kv.1 b with
      | some v => (kv.1, v)
      | none => kv) = a := by
    have hall := disjointKeys_spec h
    clear h
    induction a with
    | nil => rfl
    | cons kv rest ih =>
      rw [List.map_cons]
      rw [hall kv (List.mem_cons_self kv rest)]
      rw [ih fun kv2 hkv2 => hall kv2 (List.mem_cons_of_mem kv hkv2)]
  have hfilter : (b.filter fun kv => (alookup kv.1 a).isNone) = b := by
    rw [List.filter_eq_self]
    intro kv hkv
    have := disjointKeys_spec (disjointKeys_symm h) kv hkv
    rw [this]
    rfl
  rw [hmap, hfilter]

theorem alookup_mergeStores_disjoint {σ π α : Type} [DecidableEq σ]
    {a b : Store σ π α} (h : disjointKeys a b = true) (k : σ) :
    alookup k (mergeStores a b) = alookup k (mergeStores b a) := by
  rw [mergeStores, mergeStores, dictUpdate_of_disjoint h,
    dictUpdate_of_disjoint (disjointKeys_symm h)]
  rw [alookup_append, alookup_append]
  cases ha : alookup k a with
  | some v =>
    have hmem : (k, v) ∈ a := mem_of_alookup_eq_some ha
    have hb : alookup k b = none := disjointKeys_spec h (k, v) hmem
    simp [hb]
  | none =>
    cases hb : alookup k b <;> simp

/-! ## Helper lemmas: serialization -/

theorem render_pairs_spec_eq (l : List (String × String)) :
    render_pairs_spec l = strJoin " ;\n\t" (l.map fun po => po.1 ++ " " ++ po.2) := by
  induction l with
  | nil => rfl
  | cons po rest ih =>
    cases rest with
    | nil => rfl
    | cons q qs =>
      simp only [render_pairs_spec, List.map_cons, strJoin, ih]

theorem pred_obj_pairs_map (pm : List (String × List String)) :
    (pred_obj_pairs pm).map (fun po => po.1 ++ " " ++ po.2) =
      pm.flatMap fun pv => pv.2.map fun o => pv.1 ++ " " ++ o := by
  unfold pred_obj_pairs
  rw [List.map_flatMap]
  congr 1
  funext pv
  rw [List.map_map]
  rfl

theorem render_store_spec_eq (d : Store String String String) :
    render_store_spec d = strJoin "\n\n" (d.map render_block_spec) := by
  induction d with
  | nil => rfl
  | cons sv rest ih =>
    cases rest with
    | nil => rfl
    | cons t ts =>
      simp only [render_store_spec, List.map_cons, strJoin, ih]

/-! ## Helper lemmas: label cleaning -/

theorem mem_pyStripChars {c : Char} {l : List Char} (h : c ∈ pyStripChars l) : c ∈ l := by
  unfold pyStripChars at h
  rw [List.mem_reverse] at h
  have h1 := List.dropWhile_sublist (l := (l.dropWhile pyIsSpace).reverse) (p := pyIsSpace)
  have h2 := h1.subset h
  rw [List.mem_reverse] at h2
  exact (List.dropWhile_sublist (l := l) (p := pyIsSpace)).subset h2

theorem mem_pyRstripChars {c : Char} {l : List Char} (h : c ∈ pyRstripChars l) : c ∈ l := by
  unfold pyRstripChars at h
  rw [List.mem_reverse] at h
  have h2 := (List.dropWhile_sublist (l := l.reverse) (p := pyIsSpace)).subset h
  rw [List.mem_reverse] at h2
  exact h2

theorem mem_replaceSpaceChars {c : Char} :
    ∀ {l : List Char}, c ∈ replaceSpaceChars l → c ∈ l ∨ c = '_' := by
  intro l
  induction l with
  | nil =>
    intro h
    cases h
  | cons a as ih =>
    intro h
    rw [replaceSpaceChars] at h
    rcases List.mem_cons.mp h with heq | hmem
    · by_cases ha : a = ' '
      · right
        rw [heq, if_pos ha]
      · left
        rw [heq, if_neg ha]
        exact List.mem_cons_self a as
    · rcases ih hmem with h1 | h2
      · exact Or.inl (List.mem_cons_of_mem a h1)
      · exact Or.inr h2

theorem mem_replaceUnderHyphenUnder {c : Char} :
    ∀ l : List Char, c ∈ replaceUnderHyphenUnder l → c ∈ l ∨ c = '-' := by
  intro l
  induction l using replaceUnderHyphenUnder.induct with
  | case1 rest ih =>
    intro h
    rw [replaceUnderHyphenUnder] at h
    rcases List.mem_cons.mp h with heq | hmem
    · exact Or.inr heq
    · rcases ih hmem with h1 | h2
      · refine Or.inl ?_
        simp only [List.mem_cons]
        exact Or.inr (Or.inr (Or.inr h1))
      · exact Or.inr h2
  | case2 a rest hnotpat ih =>
    intro h
    rw [replaceUnderHyphenUnder] at h
    · rcases List.mem_cons.mp h with heq | hmem
      · exact Or.inl (heq ▸ List.mem_cons_self a rest)
      · rcases ih hmem with h1 | h2
        · exact Or.inl (List.mem_cons_of_mem a h1)
        · exact Or.inr h2
    · exact hnotpat
  | case3 =>
    intro h
    cases h

theorem pyIsAlnum_ascii {c : Char} (h : c.toNat < 0x80) : pyIsAlnum c = c.isAlphanum := by
  unfold pyIsAlnum
  rw [if_pos h]

/-! ## Helper lemmas: substring occurrence -/

theorem leadsWith_of_append {p q : List Char} :
    ∀ {l : List Char}, leadsWith (p ++ q) l = true → leadsWith p l = true := by
  induction p with
  | nil =>
    intro l _
    rfl
  | cons a ps ih =>
    intro l h
    cases l with
    | nil =>
      rw [List.cons_append, leadsWith] at h
      cases h
    | cons b bs =>
      rw [List.cons_append, leadsWith, Bool.and_eq_true] at h
      rw [leadsWith, Bool.and_eq_true]
      exact ⟨h.1, ih h.2⟩

theorem occursIn_of_append {p q : List Char} :
    ∀ {l : List Char}, occursIn (p ++ q) l = true → occursIn p l = true := by
  intro l
  induction l with
  | nil =>
    intro h
    rw [occursIn] at h ⊢
    exact leadsWith_of_append h
  | cons b bs ih =>
    intro h
    rw [occursIn, Bool.or_eq_true] at h ⊢
    rcases h with h1 | h2
    · exact Or.inl (leadsWith_of_append h1)
    · exact Or.inr (ih h2)

/-! ## Helper lemmas: literal escaping -/

theorem noDoubleQuote_replaceQuoteChars (l : List Char) :
    noDoubleQuote (replaceQuoteChars l) = true := by
  induction l with
  | nil => rfl
  | cons a as ih =>
    unfold noDoubleQuote at ih ⊢
    rw [replaceQuoteChars, List.all_cons, ih, Bool.and_true]
    by_cases ha : a = '"'
    · rw [if_pos ha]
      decide
    · rw [if_neg ha]
      exact decide_eq_true ha

/-! ## Concrete stores for witnesses and counterexamples -/

def storeA : Store String String String := [("mhdb:S", [("mhdb:p", ["o1"])])]

def storeB : Store String String String := [("mhdb:S", [("mhdb:p", ["o2"])])]

def storeC : Store String String String := [("mhdb:T", [("rdfs:label", ["t"])])]

def sampleStore : Store String String String := [("mhdb:X", [("rdfs:label", ["x"])])]

/-! ## Claim theorems -/

/-- C5: the store insertion `add_if` is idempotent — for every subject,
predicate, object and store, re-adding the same triple is a no-op on the
resulting store — and `add_if` never removes any triple already present
in the store. -/
theorem add_if_idempotent_never_deletes {σ π α : Type} [DecidableEq σ] [DecidableEq π]
    [DecidableEq α] (s : σ) (p : π) (o : α) (st : Store σ π α)
    (s2 : σ) (p2 : π) (o2 : α) :
    add_if s p o (add_if s p o st) = add_if s p o st ∧
      (storeHas s2 p2 o2 st → storeHas s2 p2 o2 (add_if s p o st)) :=
  ⟨add_if_idem s p o st, storeHas_add_if_mono s p o⟩

/-- Witness for C5: the idempotence equation and the preservation of a
present triple, at a concrete store. -/
theorem add_if_idempotent_never_deletes_witness :
    storeHas ("mhdb:X") ("rdfs:label") ("x") sampleStore ∧
      add_if ("mhdb:A") ("rdfs:seeAlso") ("y")
          (add_if ("mhdb:A") ("rdfs:seeAlso") ("y") sampleStore) =
        add_if ("mhdb:A") ("rdfs:seeAlso") ("y") sampleStore ∧
      storeHas ("mhdb:X") ("rdfs:label") ("x")
        (add_if ("mhdb:A") ("rdfs:seeAlso") ("y") sampleStore) := by
  have h := add_if_idempotent_never_deletes ("mhdb:A") ("rdfs:seeAlso") ("y")
    sampleStore ("mhdb:X") ("rdfs:label") ("x")
  exact ⟨by decide, h.1, h.2 (by decide)⟩

/-- C10: `add_if` called without an explicit `statements` argument is not
a function of its explicit arguments alone: the mutable default dictionary
persists across calls, so after two successive default-argument calls the
result of the second call also contains the triple inserted by the first
call. -/
theorem add_if_default_state_persists (s1 p1 o1 s2 p2 o2 : String) :
    storeHas s1 p1 o1 (add_if_default_twice s1 p1 o1 s2 p2 o2).2 :=
  storeHas_add_if_mono s2 p2 o2 (storeHas_add_if_self s1 p1 o1 [])

/-- C2 counterexample: merging two stores that overlap on a subject (here
with different object sets for the same predicate) by the
dictionary-spread idiom of the source is not commutative — the spread
keeps only the right-hand predicate map for the shared subject, so the two
merge orders disagree on that subject. -/
theorem merge_overlapping_not_commutative :
    alookup ("mhdb:S") (mergeStores storeA storeB) ≠
      alookup ("mhdb:S") (mergeStores storeB storeA) := by
  decide

/-- C2 amended: the dictionary-spread merge is commutative, up to subject
lookup, when the subject sets of the two stores are disjoint. -/
theorem merge_disjoint_commutes {σ π α : Type} [DecidableEq σ] (a b : Store σ π α)
    (h : disjointKeys a b = true) (k : σ) :
    alookup k (mergeStores a b) = alookup k (mergeStores b a) :=
  alookup_mergeStores_disjoint h k

/-- Witness for the amended C2 at disjoint concrete stores. -/
theorem merge_disjoint_commutes_witness :
    disjointKeys storeA storeC = true ∧
      alookup ("mhdb:S") (mergeStores storeA storeC) =
        alookup ("mhdb:S") (mergeStores storeC storeA) :=
  ⟨by decide, merge_disjoint_commutes storeA storeC (by decide) ("mhdb:S")⟩

/-- C3: for the colon-containing value with the unregistered segment
`foo` before the colon (not an absolute IRI), `check_iri` prints the
unknown-prefix diagnostic and then falls off the end of the function,
implicitly returning the Python value `None` — it does not fall through
to the default-namespace label treatment that the claim describes and
that the docstring of the function (promising a string return) implies. -/
theorem check_iri_unknown_colon_returns_none :
    occursIn [':'] ("foo:bar").data = true ∧
      occursIn [':', '/'] ("foo:bar").data = false ∧
      ("foo" : String) ∉ prefix_strings [] ∧
      check_iri ("foo:bar") [] = some none := by
  exact ⟨by decide, by decide, by decide, by decide⟩

/-! ## The C1 scenario -/

def despairRow : BehaviorRow :=
  ⟨"despair", PyVal.num 2, PyVal.num 8, PyVal.nan⟩

def dsm5Reference : List RefRow :=
  [⟨PyVal.num 8, PyVal.str ("DSM-5"), PyVal.nan⟩]

def sheetGender : List GenderRow :=
  [⟨PyVal.num 1, PyVal.str ("male")⟩, ⟨PyVal.num 2, PyVal.str ("female")⟩]

def despairExpected : Store PyVal String PyVal :=
  [(PyVal.str ("mhdb:despair"),
    [("rdfs:label", [PyVal.str ("\"\"\"despair\"\"\"@en")]),
     ("rdfs:subClassOf", [PyVal.str ("health-lifesci:MedicalSymptom")]),
     ("dcterms:source", [PyVal.pnone])])]

/-- C1 counterexample: on the scenario row (symptom `despair`,
discriminant 2, reference index 8) with the Reference row whose
`ReferenceLink` is NaN and whose `ReferenceName` is `DSM-5`, the row
ingestion stores the Python value `None` as the `dcterms:source` object
of `mhdb:despair` — it does not synthesize `mhdb:DSM-5` from the
reference name. -/
theorem behavior_row_source_not_synthesized :
    storeHas (PyVal.str ("mhdb:despair")) ("dcterms:source") PyVal.pnone
        ((behavior_row_ingest despairRow dsm5Reference sheetGender []).getD []) ∧
      ¬ storeHas (PyVal.str ("mhdb:despair")) ("dcterms:source")
          (PyVal.str ("mhdb:DSM-5"))
          ((behavior_row_ingest despairRow dsm5Reference sheetGender []).getD []) := by
  exact ⟨by decide, by decide⟩

/-- C1 amended: the scenario row produces exactly the statements
`mhdb:despair rdfs:label despair-literal ; rdfs:subClassOf
health-lifesci:MedicalSymptom ; dcterms:source None`: the source is the
Python `None` object because `BehaviorSheet1` nulls the source whenever
the `ReferenceLink` cell is a float (the NaN case) and never reads
`ReferenceName`. -/
theorem behavior_row_despair_statements :
    behavior_row_ingest despairRow dsm5Reference sheetGender [] = some despairExpected := by
  decide

/-- C9 counterexample: `return_float` applied to the string `"0"` returns
the float `0.0`, not `None` — the nonempty string passes the leading
truthiness test of `is_number`. -/
theorem return_float_string_zero : return_float (PyVal.str ("0")) = some 0 := by
  decide

/-- C9 amended: `return_float` maps the numeric `0` to `None`, and even
though it maps the string `"0"` to the float `0.0`, `get_index2` returns
`None` whenever the referenced cell holds the numeric `0` (the
`no_nan` cleaning already nulls a falsy `0`) or the string `"0"` (the
truthiness test on the parsed float `0.0` fails), for every target
worksheet, even one with a row whose `index` column equals 0. -/
theorem zero_index_lookup_returns_none (ws1 : Worksheet) (col1 : String) (idx1 : Nat)
    (ws2 : Worksheet) (col : List PyVal) (hcol : alookup col1 ws1.cols = some col)
    (h : idx1 < col.length)
    (hval : col.get ⟨idx1, h⟩ = PyVal.num 0 ∨ col.get ⟨idx1, h⟩ = PyVal.str ("0")) :
    return_float (PyVal.num 0) = none ∧ get_index2 ws1 col1 idx1 ws2 = some none := by
  constructor
  · decide
  · unfold get_index2
    rcases hval with hv | hv
    · have hc : get_cell ws1 col1 idx1 [] true = some PyVal.pnone := by
        unfold get_cell
        simp only [hcol]
        rw [dif_pos h, hv]
        decide
      rw [hc]
      rfl
    · have hc : get_cell ws1 col1 idx1 [] true = some (PyVal.str ("0")) := by
        unfold get_cell
        simp only [hcol]
        rw [dif_pos h, hv]
        decide
      rw [hc]
      rfl

def wsRef : Worksheet := ⟨[("ref", [PyVal.num 0])]⟩

def wsIndexed : Worksheet := ⟨[("index", [PyVal.num 0, PyVal.num 1])]⟩

/-- Witness for the amended C9: a reference cell holding 0 resolves to
`None` although the target worksheet has a row with index value 0. -/
theorem zero_index_lookup_returns_none_witness :
    alookup ("ref") wsRef.cols = some [PyVal.num 0] ∧
      get_index2 wsRef ("ref") 0 wsIndexed = some none := by
  refine ⟨by decide, ?_⟩
  exact (zero_index_lookup_returns_none wsRef ("ref") 0 wsIndexed [PyVal.num 0]
    (by decide) (by decide) (Or.inl (by decide))).2

/-- C4 counterexample: Python `str.isalnum` is Unicode-aware, so the
Latin-1 letter in the label passes the keep-filter unchanged and the slug
contains a character outside the claimed `A-Z a-z 0-9 . _ -` set. -/
theorem convert_label_nonascii_escapes_charset :
    convert_string_to_label ("é") = some ("é") ∧
      onlyLabelSafeChars ("é") = false := by
  exact ⟨by decide, by decide⟩

/-- C4 amended: for every non-empty ASCII string, the slug returned by
`convert_string_to_label` contains only characters from the claimed set
`A-Z a-z 0-9 . _ -` (indeed never the dot, which the keep-filter also
drops): spaces become underscores, the underscore-hyphen-underscore
substring collapses to a hyphen, and every other character that is not
alphanumeric, hyphen or underscore is dropped. -/
theorem convert_label_ascii_charset (s : String) (hne : s ≠ "")
    (hascii : allAscii s = true) :
    onlyLabelSafeChars ((convert_string_to_label s).getD "") = true := by
  unfold convert_string_to_label
  rw [if_neg hne]
  show onlyLabelSafeChars (String.mk (convertLabelChars s.data)) = true
  unfold onlyLabelSafeChars
  rw [List.all_eq_true]
  intro c hc
  have hc2 : c ∈ convertLabelChars s.data := hc
  unfold convertLabelChars at hc2
  have hc3 := mem_pyRstripChars hc2
  rw [List.mem_filter] at hc3
  obtain ⟨hmem, hkeep⟩ := hc3
  have hascii_c : c.toNat < 0x80 := by
    rcases mem_replaceUnderHyphenUnder _ hmem with h1 | h1
    · rcases mem_replaceSpaceChars h1 with h2 | h2
      · have := List.all_eq_true.mp hascii c (mem_pyStripChars h2)
        simpa using this
      · rw [h2]
        decide
    · rw [h1]
      decide
  unfold keepLabelChar at hkeep
  rw [pyIsAlnum_ascii hascii_c] at hkeep
  simp only [Bool.or_eq_true, decide_eq_true_eq] at hkeep ⊢
  tauto

/-- Witness for the amended C4 at a concrete ASCII label. -/
theorem convert_label_ascii_charset_witness :
    (("a b-c" : String) ≠ "") ∧ allAscii ("a b-c") = true ∧
      onlyLabelSafeChars ((convert_string_to_label ("a b-c")).getD "") = true :=
  ⟨by decide, by decide, convert_label_ascii_charset ("a b-c") (by decide) (by decide)⟩

/-- Bool-level check that each subject of a store has at least one
predicate and each predicate at least one object. -/
def storeNonempty (d : Store String String String) : Bool :=
  d.all fun sv => !sv.2.isEmpty && sv.2.all fun pv => !pv.2.isEmpty

/-- C6: for every statement store in which each subject has at least one
predicate and each predicate a non-empty object set, `turtle_from_dict`
renders each subject as the block `subject pred1 obj1 ;\n\tpred2 obj2
... .` — predicate-object pairs joined by a semicolon and a tab-indented
newline, the block terminated by a space and dot — with the blocks of
distinct subjects separated by blank lines; `render_store_spec` (with
`render_block_spec` and `render_pairs_spec`) states that shape by
explicit recursion, following the wording of the spec. -/
theorem turtle_from_dict_renders_blocks (d : Store String String String)
    (_h : storeNonempty d = true) :
    turtle_from_dict d = render_store_spec d := by
  rw [render_store_spec_eq]
  unfold turtle_from_dict
  congr 1
  have hfun : (fun sv : String × List (String × List String) =>
      sv.1 ++ " " ++
        strJoin " ;\n\t" (sv.2.flatMap fun pv => pv.2.map fun o => pv.1 ++ " " ++ o) ++
        " .") = render_block_spec := by
    funext sv
    unfold render_block_spec
    rw [render_pairs_spec_eq, pred_obj_pairs_map]
  rw [hfun]

def duckStore : Store String String String :=
  [("duck", [("continues", ["sitting"])]), ("goose", [("begins", ["chasing"])])]

/-- Witness for C6 at the store of the doctest in the source, whose
rendering is the expected doctest text. -/
theorem turtle_from_dict_renders_blocks_witness :
    storeNonempty duckStore = true ∧
      turtle_from_dict duckStore = render_store_spec duckStore ∧
      turtle_from_dict duckStore = "duck continues sitting .\n\ngoose begins chasing ." := by
  refine ⟨by decide, turtle_from_dict_renders_blocks duckStore (by decide), by decide⟩

/-- C7 counterexample: this input contains the absolute-IRI marker, but
its segment before the first colon is the empty string — a registered
(default-namespace) prefix — so `check_iri` returns the value unchanged
instead of wrapping it in angle brackets. -/
theorem check_iri_absolute_counterexample :
    occursIn [':', '/', '/'] ("://duck").data = true ∧
      check_iri ("://duck") [] = some (some ("://duck")) := by
  exact ⟨by decide, by decide⟩

/-- C7 amended: an input containing the absolute-IRI marker is wrapped in
angle brackets provided it does not also contain a colon-space pair, does
not end with a colon, and its segment before the first colon is not a
registered prefix (the prefix-string set containing the empty and
blank-node entries). -/
theorem check_iri_absolute_wrapped (s : String) (ps : List (String × String))
    (h1 : occursIn [':', '/', '/'] s.data = true)
    (h2 : occursIn [':', ' '] s.data = false)
    (h3 : s.data.getLast? ≠ some (':'))
    (h4 : (prefix_strings ps).contains
        (String.mk (s.data.takeWhile (fun ch => ch ≠ ':'))) = false) :
    check_iri s ps = some (some ("<" ++ s ++ ">")) := by
  unfold check_iri
  cases hrev : s.data.reverse with
  | nil =>
    exfalso
    have hnil : s.data = [] := by
      have := congrArg List.reverse hrev
      simpa using this
    rw [hnil] at h1
    simp [occursIn, leadsWith] at h1
  | cons c rl =>
    have hlast : s.data.getLast? = some c := by
      rw [← List.head?_reverse, hrev]
      rfl
    have hc : c ≠ ':' := by
      intro hceq
      exact h3 (by rw [hlast, hceq])
    have hl : (c :: rl).reverse = s.data := by
      rw [← hrev, List.reverse_reverse]
    have hcolon : occursIn [':'] s.data = true :=
      occursIn_of_append (p := [':']) (q := ['/', '/']) h1
    have hslash : occursIn [':', '/'] s.data = true :=
      occursIn_of_append (p := [':', '/']) (q := ['/']) h1
    rw [check_iri_rev]
    simp only [hl, hcolon, h2, hslash, h4, if_neg hc, Bool.not_false, Bool.and_self,
      if_true, Bool.false_eq_true, if_false, Option.map_some]
    refine congrArg some (congrArg some ?_)
    have hdata : ("<" ++ s ++ ">").data = '<' :: s.data ++ ['>'] := by
      rw [String.data_append, String.data_append]
      rfl
    apply String.ext
    rw [hdata]

def absSample : String := "http://example.com/duck"

/-- Witness for the amended C7 at a concrete absolute IRI. -/
theorem check_iri_absolute_wrapped_witness :
    occursIn [':', '/', '/'] absSample.data = true ∧
      occursIn [':', ' '] absSample.data = false ∧
      absSample.data.getLast? ≠ some (':') ∧
      (prefix_strings []).contains
        (String.mk (absSample.data.takeWhile (fun ch => ch ≠ ':'))) = false ∧
      check_iri absSample [] = some (some ("<" ++ absSample ++ ">")) := by
  refine ⟨by decide, by decide, by decide, by decide, ?_⟩
  exact check_iri_absolute_wrapped absSample [] (by decide) (by decide) (by decide) (by decide)

/-- C8: `language_string` wraps its text in triple quotes with an
appended language tag for English, escaping every embedded double quote
by substituting an apostrophe (lossy substitution, so the escaped payload
holds no double quote), and maps a `None` or empty input to the empty
string rather than raising.  Modelled from the spec, since
`language_string` is imported by `ingest.py` from `mhdb.write_ttl` but is
absent from the source files; the apostrophe-for-quote substitution
matches the `return_string(comment, [quote], [apostrophe])` idiom of
`write_rdf.build_rdf`. -/
theorem language_string_wraps_escapes (s : String) (hne : s ≠ "") :
    language_string none = "" ∧ language_string (some ("")) = "" ∧
      language_string (some s) =
        "\"\"\"" ++ String.mk (replaceQuoteChars s.data) ++ "\"\"\"@en" ∧
      noDoubleQuote (replaceQuoteChars s.data) = true := by
  refine ⟨rfl, rfl, ?_, noDoubleQuote_replaceQuoteChars s.data⟩
  have heq : language_string (some s) =
      if s = "" then ""
      else "\"\"\"" ++ String.mk (replaceQuoteChars s.data) ++ "\"\"\"@en" := rfl
  rw [heq, if_neg hne]

/-- Witness for C8 at a label carrying an embedded double quote. -/
theorem language_string_wraps_escapes_witness :
    (("He said \"stop\"" : String) ≠ "") ∧
      language_string (some ("He said \"stop\"")) =
        "\"\"\"" ++ String.mk (replaceQuoteChars ("He said \"stop\"").data) ++ "\"\"\"@en" ∧
      noDoubleQuote (replaceQuoteChars ("He said \"stop\"").data) = true := by
  refine ⟨by decide, ?_, ?_⟩
  · exact (language_string_wraps_escapes ("He said \"stop\"") (by decide)).2.2.1
  · exact (language_string_wraps_escapes ("He said \"stop\"") (by decide)).2.2.2
